import Mathlib

/-!
Verification of the audio-2-features worker (`src/index.ts`).

The worker's pipeline is embedded shallowly:

* JavaScript runtime values flowing through the pipeline are modelled by the
  `Json` inductive (JS numbers are represented as exact rationals; no claim
  depends on floating-point rounding, the pipeline only passes numbers
  through without arithmetic).
* `JSON.parse` is embedded as `parseJsonText`, a strict JSON parser over the
  characters of the input string.
* The regex `/\x7b[\s\S]*\x7d/` used to locate an embedded JSON object is
  embedded as `braceSpan` (first `\x7b` to last `\x7d`).
* The AI inference backends are external collaborators; each call is
  modelled by its observable outcome (`GenOutcome`, `WhisperOutcome`):
  the call throws (carrying the JS error's message, or none for a non-Error
  throw) or resolves to an object exposing the optional text fields the
  worker reads.  Wall-clock durations measured via `Date.now()` are passed
  in as parameters.
* R2 / D1 storage are external collaborators; their availability and
  failure points are inputs (`D1Env`, `UploadEnv`), and the rows the worker
  would insert are returned as a list.
-/

/-- A JavaScript/JSON value as it flows through the worker. -/
inductive Json where
  | null
  | bool (b : Bool)
  | num (q : ℚ)
  | str (s : String)
  | arr (elems : List Json)
  | obj (fields : List (String × Json))

mutual

def Json.beq : Json → Json → Bool
  | .null, .null => true
  | .bool a, .bool b => a == b
  | .num a, .num b => a == b
  | .str a, .str b => a == b
  | .arr a, .arr b => Json.beqList a b
  | .obj a, .obj b => Json.beqFields a b
  | _, _ => false

def Json.beqList : List Json → List Json → Bool
  | [], [] => true
  | a :: as, b :: bs => Json.beq a b && Json.beqList as bs
  | _, _ => false

def Json.beqFields : List (String × Json) → List (String × Json) → Bool
  | [], [] => true
  | (k, v) :: as, (k2, v2) :: bs => k == k2 && Json.beq v v2 && Json.beqFields as bs
  | _, _ => false

end

mutual

theorem Json.beq_iff : ∀ a b : Json, Json.beq a b = true ↔ a = b
  | .null, .null => by simp [Json.beq]
  | .bool _, .bool _ => by simp [Json.beq]
  | .num _, .num _ => by simp [Json.beq]
  | .str _, .str _ => by simp [Json.beq]
  | .arr a, .arr b => by simp [Json.beq, Json.beqList_iff a b]
  | .obj a, .obj b => by simp [Json.beq, Json.beqFields_iff a b]
  | .null, .bool _ | .null, .num _ | .null, .str _ | .null, .arr _ | .null, .obj _ => by
      simp [Json.beq]
  | .bool _, .null | .bool _, .num _ | .bool _, .str _ | .bool _, .arr _ | .bool _, .obj _ => by
      simp [Json.beq]
  | .num _, .null | .num _, .bool _ | .num _, .str _ | .num _, .arr _ | .num _, .obj _ => by
      simp [Json.beq]
  | .str _, .null | .str _, .bool _ | .str _, .num _ | .str _, .arr _ | .str _, .obj _ => by
      simp [Json.beq]
  | .arr _, .null | .arr _, .bool _ | .arr _, .num _ | .arr _, .str _ | .arr _, .obj _ => by
      simp [Json.beq]
  | .obj _, .null | .obj _, .bool _ | .obj _, .num _ | .obj _, .str _ | .obj _, .arr _ => by
      simp [Json.beq]

theorem Json.beqList_iff : ∀ a b : List Json, Json.beqList a b = true ↔ a = b
  | [], [] => by simp [Json.beqList]
  | a :: as, b :: bs => by
      simp [Json.beqList, Json.beq_iff a b, Json.beqList_iff as bs]
  | [], _ :: _ => by simp [Json.beqList]
  | _ :: _, [] => by simp [Json.beqList]

theorem Json.beqFields_iff : ∀ a b : List (String × Json), Json.beqFields a b = true ↔ a = b
  | [], [] => by simp [Json.beqFields]
  | (k, v) :: as, (k2, v2) :: bs => by
      simp [Json.beqFields, Json.beq_iff v v2, Json.beqFields_iff as bs]
  | [], _ :: _ => by simp [Json.beqFields]
  | _ :: _, [] => by simp [Json.beqFields]

end

instance : DecidableEq Json := fun a b =>
  decidable_of_iff (Json.beq a b = true) (Json.beq_iff a b)

/-- Property lookup on a field list (first match; the parser and the spread
operation never produce duplicate keys). -/
def lookupField (fs : List (String × Json)) (k : String) : Option Json :=
  (fs.find? (fun p => p.1 = k)).map (·.2)

/-- JS property access `o.k` on a value; non-objects yield no field. -/
def Json.getField : Json → String → Option Json
  | .obj fs, k => lookupField fs k
  | _, _ => none

/-- Insert-or-replace a key, as both `JSON.parse` (duplicate keys: last value
wins, first position kept) and JS object spread (later keys override) do:
the first binding of the key is overwritten in place, a new key is
appended.  (The field lists it is applied to never hold duplicate keys.) -/
def objUpsert : List (String × Json) → String → Json → List (String × Json)
  | [], k, v => [(k, v)]
  | (k2, v2) :: fs, k, v =>
    if k2 = k then (k, v) :: fs else (k2, v2) :: objUpsert fs k v

/-- JS truthiness of a value. -/
def jsTruthy : Json → Bool
  | .null => false
  | .bool b => b
  | .num q => !(q == 0)
  | .str s => !s.isEmpty
  | .arr _ => true
  | .obj _ => true

/-- Evaluate `a || d` on an optional property (`none` models `undefined`). -/
def jsOrElse (o : Option Json) (d : Json) : Json :=
  match o with
  | some v => if jsTruthy v then v else d
  | none => d

/-- Evaluate `a ?? null` on an optional property. -/
def jsNullish (o : Option Json) : Json :=
  match o with
  | some .null => .null
  | some v => v
  | none => .null

/-- Evaluate `a || b || ""` over the two optional response-text fields a backend
result may expose (empty strings are falsy). -/
def respText (a b : Option String) : String :=
  match a with
  | some s =>
      if s.isEmpty then
        match b with
        | some t => if t.isEmpty then "" else t
        | none => ""
      else s
  | none =>
      match b with
      | some t => if t.isEmpty then "" else t
      | none => ""

/-- Test whether `hay` starts with `needle` (character-wise). -/
def listStartsWith : List Char → List Char → Bool
  | _, [] => true
  | [], _ :: _ => false
  | h :: hs, n :: ns => h == n && listStartsWith hs ns

/-- Evaluate `hay.includes(needle)` (character-wise substring test). -/
def listHasSub (hay needle : List Char) : Bool :=
  match hay with
  | [] => needle.isEmpty
  | _ :: t => listStartsWith hay needle || listHasSub t needle

/-- Embedding of `String.prototype.includes`. -/
def strHasSub (hay needle : String) : Bool :=
  listHasSub hay.data needle.data

/-- Embedding of `String.prototype.startsWith`. -/
def strStartsWith (s p : String) : Bool :=
  listStartsWith s.data p.data

/-- Embedding of `String.prototype.toLowerCase` (character-wise; the titles it is
applied to are ASCII). -/
def strToLower (s : String) : String :=
  ⟨s.data.map Char.toLower⟩

/-! ## JSON.parse, embedded as a strict JSON parser -/

/-- JSON whitespace. -/
def isJsonWs (c : Char) : Bool :=
  c = ' ' || c = '\t' || c = '\n' || c = '\r'

def skipWs : List Char → List Char
  | [] => []
  | c :: cs => if isJsonWs c then skipWs cs else c :: cs

def hexDigitVal (c : Char) : Option Nat :=
  if c.isDigit then some (c.toNat - 48)
  else if 'a' ≤ c && c ≤ 'f' then some (c.toNat - 87)
  else if 'A' ≤ c && c ≤ 'F' then some (c.toNat - 55)
  else none

/-- Parse the rest of a JSON string literal (after the opening quote),
accumulating characters in reverse. -/
def parseStringRest : Nat → List Char → List Char → Option (String × List Char)
  | 0, _, _ => none
  | _ + 1, [], _ => none
  | _ + 1, '"' :: rest, acc => some (⟨acc.reverse⟩, rest)
  | fuel + 1, '\\' :: e :: rest, acc =>
    match e with
    | '"' => parseStringRest fuel rest ('"' :: acc)
    | '\\' => parseStringRest fuel rest ('\\' :: acc)
    | '/' => parseStringRest fuel rest ('/' :: acc)
    | 'b' => parseStringRest fuel rest (Char.ofNat 8 :: acc)
    | 'f' => parseStringRest fuel rest (Char.ofNat 12 :: acc)
    | 'n' => parseStringRest fuel rest ('\n' :: acc)
    | 'r' => parseStringRest fuel rest ('\r' :: acc)
    | 't' => parseStringRest fuel rest ('\t' :: acc)
    | 'u' =>
      match rest with
      | h1 :: h2 :: h3 :: h4 :: rest2 =>
        match hexDigitVal h1, hexDigitVal h2, hexDigitVal h3, hexDigitVal h4 with
        | some a, some b, some c, some d =>
            parseStringRest fuel rest2 (Char.ofNat (((a * 16 + b) * 16 + c) * 16 + d) :: acc)
        | _, _, _, _ => none
      | _ => none
    | _ => none
  | fuel + 1, c :: rest, acc =>
    if c.toNat < 32 then none else parseStringRest fuel rest (c :: acc)

def takeDigits : List Char → List Char × List Char
  | [] => ([], [])
  | c :: cs =>
    if c.isDigit then
      let (ds, rest) := takeDigits cs
      (c :: ds, rest)
    else ([], c :: cs)

def digitsToNat (ds : List Char) : Nat :=
  ds.foldl (fun n c => 10 * n + (c.toNat - 48)) 0

/-- JSON integer part: `0` or a nonzero digit followed by digits. -/
def parseIntPart (cs : List Char) : Option (Nat × List Char) :=
  match takeDigits cs with
  | ([], _) => none
  | (ds, rest) =>
    if ds.length > 1 && ds.head? == some '0' then none
    else some (digitsToNat ds, rest)

/-- JSON number: `-? int frac? exp?`, built exactly as a rational
(`mantissa / scale`, finished by one `mkRat`). -/
def parseNumber (cs : List Char) : Option (ℚ × List Char) :=
  let (neg, cs1) :=
    match cs with
    | '-' :: t => (true, t)
    | _ => (false, cs)
  match parseIntPart cs1 with
  | none => none
  | some (ip, cs2) =>
    let fracStep : Option (Nat × Nat × List Char) :=
      match cs2 with
      | '.' :: t =>
        match takeDigits t with
        | ([], _) => none
        | (ds, rest) => some (ip * 10 ^ ds.length + digitsToNat ds, 10 ^ ds.length, rest)
      | _ => some (ip, 1, cs2)
    match fracStep with
    | none => none
    | some (mant, scale, cs3) =>
      let expStep : Option (Nat × Nat × List Char) :=
        match cs3 with
        | 'e' :: t | 'E' :: t =>
          let (eneg, t2) :=
            match t with
            | '-' :: u => (true, u)
            | '+' :: u => (false, u)
            | _ => (false, t)
          match takeDigits t2 with
          | ([], _) => none
          | (ds, rest) =>
            let e := digitsToNat ds
            some (if eneg then (mant, scale * 10 ^ e, rest) else (mant * 10 ^ e, scale, rest))
        | _ => some (mant, scale, cs3)
      match expStep with
      | none => none
      | some (m, d, cs4) =>
        some (mkRat (if neg then -(m : Int) else (m : Int)) d, cs4)

mutual

/-- Parse one JSON value starting at the given characters (leading
whitespace already consumed). -/
def parseValue : Nat → List Char → Option (Json × List Char)
  | 0, _ => none
  | fuel + 1, cs =>
    match cs with
    | 'n' :: 'u' :: 'l' :: 'l' :: rest => some (.null, rest)
    | 't' :: 'r' :: 'u' :: 'e' :: rest => some (.bool true, rest)
    | 'f' :: 'a' :: 'l' :: 's' :: 'e' :: rest => some (.bool false, rest)
    | '"' :: rest =>
      match parseStringRest (rest.length + 1) rest [] with
      | some (s, rest2) => some (.str s, rest2)
      | none => none
    | '\x7b' :: rest => parseObjBody fuel true [] (skipWs rest)
    | '[' :: rest => parseArrBody fuel true [] (skipWs rest)
    | c :: _ =>
      if c = '-' || c.isDigit then
        match parseNumber cs with
        | some (q, rest) => some (.num q, rest)
        | none => none
      else none
    | [] => none

/-- Parse the members of an object after the opening brace (whitespace
skipped); `first` is false after a comma, where a closing brace would be a
trailing comma and is rejected. -/
def parseObjBody : Nat → Bool → List (String × Json) → List Char →
    Option (Json × List Char)
  | 0, _, _, _ => none
  | fuel + 1, first, acc, cs =>
    match cs with
    | '\x7d' :: rest => if first then some (.obj acc, rest) else none
    | '"' :: rest =>
      match parseStringRest (rest.length + 1) rest [] with
      | some (k, cs1) =>
        match skipWs cs1 with
        | ':' :: cs2 =>
          match parseValue fuel (skipWs cs2) with
          | some (v, cs3) =>
            match skipWs cs3 with
            | '\x7d' :: rest2 => some (.obj (objUpsert acc k v), rest2)
            | ',' :: rest2 => parseObjBody fuel false (objUpsert acc k v) (skipWs rest2)
            | _ => none
          | none => none
        | _ => none
      | none => none
    | _ => none

/-- Parse the elements of an array after the opening bracket (whitespace
skipped). -/
def parseArrBody : Nat → Bool → List Json → List Char → Option (Json × List Char)
  | 0, _, _, _ => none
  | fuel + 1, first, acc, cs =>
    match cs, first with
    | ']' :: rest, true => some (.arr acc.reverse, rest)
    | _, _ =>
      match parseValue fuel cs with
      | some (v, cs1) =>
        match skipWs cs1 with
        | ']' :: rest => some (.arr (v :: acc).reverse, rest)
        | ',' :: rest => parseArrBody fuel false (v :: acc) (skipWs rest)
        | _ => none
      | none => none

end

/-- Embedding of `JSON.parse`: the whole input (modulo surrounding whitespace) must be
one JSON value. -/
def parseJsonText (s : String) : Option Json :=
  match parseValue (s.length + 1) (skipWs s.data) with
  | some (v, rest) => if (skipWs rest).isEmpty then some v else none
  | none => none

/-! ## The brace-span regex -/

/-- Index of the first occurrence of `c`. -/
def firstIdxOf (c : Char) (cs : List Char) : Option Nat :=
  cs.findIdx? (fun x => x = c)

/-- Index of the last occurrence of `c`. -/
def lastIdxOf (c : Char) (cs : List Char) : Option Nat :=
  match firstIdxOf c cs.reverse with
  | some k => some (cs.length - 1 - k)
  | none => none

/-- Embedding of the regex match `responseText.match(...)` on the brace pattern: the match, when it exists, runs
from the first opening brace to the last closing brace. -/
def braceSpan (s : String) : Option String :=
  match firstIdxOf '\x7b' s.data, lastIdxOf '\x7d' s.data with
  | some i, some j => if i < j then some ⟨(s.data.drop i).take (j - i + 1)⟩ else none
  | _, _ => none

/-- The brace span decoded by `JSON.parse`, when both steps succeed. -/
def parsedSpan (s : String) : Option Json :=
  match braceSpan s with
  | some span => parseJsonText span
  | none => none

/-! ## Extraction Stage (`extractFeatureRequests`) -/

/-- Observable outcome of one call to the text-generation backend
(`ai.run` on the Mistral model): the call throws (carrying the error's
message, or `none` when a non-`Error` value was thrown), or resolves to an
object whose `response` / `text` fields the worker reads. -/
inductive GenOutcome where
  | throws (msg : Option String)
  | ok (response : Option String) (text : Option String)

def mistralModelId : String := "@cf/mistral/mistral-7b-instruct-v0.2-lora"

/-- Evaluate `err instanceof Error ? err.message : "Unknown error"`. -/
def errMsgOf (m : Option String) : String :=
  m.getD "Unknown error"

/-- The fixed record substituted when the model response cannot be parsed. -/
def parseErrorRecord : Json :=
  Json.obj
    [ ("id", .str "parse-error-1"),
      ("title", .str "Unable to parse AI response"),
      ("description", .str
        "The AI model returned a response that couldn't be parsed as structured feature requests."),
      ("priority", .str "low"),
      ("category", .str "improvement"),
      ("confidence", .num (mkRat 1 10)),
      ("potentialRecommendation", .str
        "• Check AI model configuration\n• Implement better error handling") ]

/-- The fallback `parsedResult` substituted on parse failure. -/
def parseErrorFields : List (String × Json) :=
  [ ("requests", .arr [parseErrorRecord]),
    ("summary", .str "Error in processing AI response") ]

/-- The fixed record substituted when the backend invocation itself fails. -/
def extractionFallbackRecord : Json :=
  Json.obj
    [ ("id", .str "fallback-1"),
      ("title", .str "[Fallback] Feature extraction failed"),
      ("description", .str
        "The AI model failed to process the transcription. This could be due to network issues, model unavailability, or configuration problems."),
      ("priority", .str "medium"),
      ("category", .str "improvement"),
      ("confidence", .num (mkRat 3 10)),
      ("potentialRecommendation", .str
        "• Verify Cloudflare Workers AI configuration\n• Check network connectivity and model availability") ]

/-- The whole result returned when the backend invocation fails (after the
300ms artificial delay; the hardcoded `extractionTimeMs: 300` stands in for
it in the embedding). -/
def extractionFallbackResult (m : Option String) : Json :=
  Json.obj
    [ ("requests", .arr [extractionFallbackRecord]),
      ("summary", .str "Feature extraction failed - using fallback response"),
      ("extractionTimeMs", .num 300),
      ("model", .str mistralModelId),
      ("error", .str (errMsgOf m)) ]

/-- Spread `...parsedResult` together with `extractionTimeMs`, `model` and
`originalTranscription`: JS object spread with the three metadata keys added last. -/
def spreadWithMeta (base : List (String × Json)) (elapsed : Nat) (transcription : String) :
    Json :=
  Json.obj
    (objUpsert
      (objUpsert (objUpsert base "extractionTimeMs" (.num (mkRat elapsed 1))) "model"
        (.str mistralModelId))
      "originalTranscription" (.str transcription))

/-- Embedding of `extractFeatureRequests(transcription, ai)`.  `ai = none` models an
absent AI binding (the `throw new Error("AI binding not available")` is
caught by the same `catch`); `elapsed` is the `Date.now()` duration measured
around the backend call. -/
def extractFeatureRequests (transcription : String) (ai : Option GenOutcome)
    (elapsed : Nat) : Json :=
  match ai with
  | none => extractionFallbackResult (some "AI binding not available")
  | some (.throws m) => extractionFallbackResult m
  | some (.ok resp txt) =>
    let responseText := respText resp txt
    let parsedFields : List (String × Json) :=
      match parsedSpan responseText with
      | some (.obj fs) => fs
      | some _ => []
      | none => parseErrorFields
    spreadWithMeta parsedFields elapsed transcription

/-! ## Transcription Stage (`processAudioWithAI`) -/

/-- The fields the worker reads off a resolved Whisper call. -/
structure WhisperFields where
  text : Option String
  transcription : Option String
  language : Option String
  languageConfidence : Option ℚ

/-- Observable outcome of one call to the speech-to-text backend. -/
inductive WhisperOutcome where
  | throws (msg : Option String)
  | ok (r : WhisperFields)

def whisperModelId : String := "@cf/openai/whisper-tiny-en"

def mockTranscriptionText : String :=
  "[mock] This is a mock transcription. Workers AI call failed or is not configured yet."

/-- The hardcoded mock feature-request record in the transcription
fallback. -/
def mockFeatureRequestRecord : Json :=
  Json.obj
    [ ("id", .str "mock-1"),
      ("title", .str "[Mock] Feature Request Example"),
      ("description", .str "This is a mock feature request extracted from the transcription."),
      ("priority", .str "medium"),
      ("category", .str "enhancement"),
      ("confidence", .num (mkRat 8 10)),
      ("potentialRecommendation", .str
        "• Implement user feedback collection system\n• Add feature request tracking dashboard") ]

/-- The hardcoded mock `featureRequests` object embedded by the
transcription fallback (note: built inline, not by calling
`extractFeatureRequests`). -/
def mockFeatureRequests (errMsg : String) : Json :=
  Json.obj
    [ ("requests", .arr [mockFeatureRequestRecord]),
      ("extractionTimeMs", .num 500),
      ("model", .str mistralModelId),
      ("error", .str errMsg) ]

/-- The whole mock result of `processAudioWithAI` when the Whisper call
fails or the AI binding is absent (returned after the 500ms artificial
delay, represented by the hardcoded 500ms durations). -/
def mockEnvelope (m : Option String) : Json :=
  Json.obj
    [ ("transcription", .str mockTranscriptionText),
      ("language", .obj [("detected", .str "en"), ("confidence", .num (mkRat 9 10))]),
      ("processingTimeMs", .num 500),
      ("model", .str whisperModelId),
      ("featureRequests", mockFeatureRequests (errMsgOf m)),
      ("error", .str (errMsgOf m)) ]

/-- Build the optional `language` member of the success envelope
(an `undefined`-valued property is modelled by omitting the key; JSON
serialization drops it either way). -/
def languageFields (r : WhisperFields) : List (String × Json) :=
  match r.language with
  | some l =>
    if l.isEmpty then []
    else
      [ ("language",
          Json.obj
            ([("detected", Json.str l)] ++
              match r.languageConfidence with
              | some q => [("confidence", Json.num q)]
              | none => [])) ]
  | none => []

/-- Embedding of `processAudioWithAI(audioBuffer, ai)`.  `ai = none` models an absent AI
binding; otherwise the pair gives the outcome of the Whisper call and, if
that call resolves, of the nested text-generation call.  `wElapsed` /
`gElapsed` are the measured wall-clock durations of the two calls. -/
def processAudioWithAI (ai : Option (WhisperOutcome × GenOutcome))
    (wElapsed gElapsed : Nat) : Json :=
  match ai with
  | none => mockEnvelope (some "AI binding not available")
  | some (.throws m, _) => mockEnvelope m
  | some (.ok r, g) =>
    let transcriptionText := respText r.text r.transcription
    let featureRequests := extractFeatureRequests transcriptionText (some g) gElapsed
    Json.obj
      ([("transcription", Json.str transcriptionText)] ++ languageFields r ++
        [ ("processingTimeMs", Json.num (mkRat wElapsed 1)),
          ("model", Json.str whisperModelId),
          ("featureRequests", featureRequests) ])

/-! ## `/extract-features` handler -/

/-- Response of the `/extract-features` handler: a 400 with an error
string, or the 200 success envelope (whose `featureRequests` member is the
extraction result; the fixed `success: true` / `message` fields are
implied by the constructor). -/
inductive ExtractResp where
  | badRequest (msg : String)
  | ok (featureRequests : Json)
deriving DecidableEq

/-- Embedding of the `/extract-features` handler body after JSON body decoding:
`transcription` is the body's `transcription` field (`none` when absent).
`if (!transcription)` tests JS truthiness, so the empty string takes the
400 branch as well. -/
def extractFeaturesHandler (transcription : Option String) (ai : Option GenOutcome)
    (elapsed : Nat) : ExtractResp :=
  match transcription with
  | none => .badRequest "No transcription provided"
  | some t =>
    if t.isEmpty then .badRequest "No transcription provided"
    else .ok (extractFeatureRequests t ai elapsed)

/-! ## `/upload` handler: persistence filter and response -/

/-- One row of the `feature_requests` table as the worker binds it
(`created_at` is filled by the store and carries no worker-chosen
content). -/
structure FRRow where
  id : String
  audioFileId : String
  title : Json
  description : Json
  priority : Json
  category : Json
  confidence : Json
  potentialRecommendation : Json
  summary : Json
deriving DecidableEq

/-- Nat to lowercase hex (for `stringifyJson` control-character escapes). -/
def natToHex : Nat → String
  | n =>
    let d := "0123456789abcdef".data
    ⟨[d.getD (n / 4096 % 16) '0', d.getD (n / 256 % 16) '0', d.getD (n / 16 % 16) '0',
      d.getD (n % 16) '0']⟩

/-- JSON string-literal escaping as `JSON.stringify` performs it. -/
def stringifyStr (s : String) : String :=
  "\"" ++ String.join (s.data.map (fun c =>
    if c = '"' then "\\\""
    else if c = '\\' then "\\\\"
    else if c = '\n' then "\\n"
    else if c = '\r' then "\\r"
    else if c = '\t' then "\\t"
    else if c.toNat = 8 then "\\b"
    else if c.toNat = 12 then "\\f"
    else if c.toNat < 32 then "\\u" ++ natToHex c.toNat
    else ⟨[c]⟩)) ++ "\""

mutual

/-- Embedding of `JSON.stringify` (used only to serialize an array-valued
`potentialRecommendation` into the stored text blob).  Numbers are printed
exactly (integers in decimal, other rationals as `num/den`); JS prints the
shortest double round-trip instead — a float-formatting detail no claim
depends on, and the spec leaves the joined form to the implementer. -/
def stringifyJson : Json → String
  | .null => "null"
  | .bool true => "true"
  | .bool false => "false"
  | .num q => if q.den = 1 then toString q.num else toString q.num ++ "/" ++ toString q.den
  | .str s => stringifyStr s
  | .arr xs => "[" ++ stringifyList xs ++ "]"
  | .obj fs => "\x7b" ++ stringifyFields fs ++ "\x7d"

def stringifyList : List Json → String
  | [] => ""
  | [x] => stringifyJson x
  | x :: xs => stringifyJson x ++ "," ++ stringifyList xs

def stringifyFields : List (String × Json) → String
  | [] => ""
  | [(k, v)] => stringifyStr k ++ ":" ++ stringifyJson v
  | (k, v) :: fs => stringifyStr k ++ ":" ++ stringifyJson v ++ "," ++ stringifyFields fs

end

/-- The filter callback
`req.title && !req.title.toLowerCase().includes('parse error') &&
!req.title.toLowerCase().includes('fallback')`, with JS evaluation
faithfully including its failure mode: a truthy non-string `title` (and a
`null`/`undefined` element, whose property access throws) raises a
TypeError, which aborts the whole persistence block. -/
def isActionable : Json → Except Unit Bool
  | .null => .error ()
  | .obj fs =>
    match lookupField fs "title" with
    | none => .ok false
    | some .null => .ok false
    | some (.bool false) => .ok false
    | some (.bool true) => .error ()
    | some (.num q) => if q = 0 then .ok false else .error ()
    | some (.arr _) => .error ()
    | some (.obj _) => .error ()
    | some (.str s) =>
      if s.isEmpty then .ok false
      else .ok (!strHasSub (strToLower s) "parse error" && !strHasSub (strToLower s) "fallback")
  | _ => .ok false

/-- Embedding of `requests.filter(...)` — callbacks run left to right, the first throw
aborts. -/
def filterActionable : List Json → Except Unit (List Json)
  | [] => .ok []
  | r :: rs =>
    match isActionable r with
    | .error e => .error e
    | .ok b =>
      match filterActionable rs with
      | .error e => .error e
      | .ok rest => .ok (if b then r :: rest else rest)

/-- The spec's actionability predicate, stated in its own words (§3
invariant): `title` is present, non-empty, and its lowercase form contains
neither "parse error" nor "fallback".  Compared against the code's filter
(`isActionable`) below. -/
def actionableSpec (r : Json) : Bool :=
  match r.getField "title" with
  | some (.str s) =>
    !s.isEmpty && !strHasSub (strToLower s) "parse error" && !strHasSub (strToLower s) "fallback"
  | _ => false

/-- A record whose `title` (and the record itself) has a shape on which the
filter callback cannot throw: any non-null non-object record, or an object
whose `title` is absent, `null`, `false`, `0`, or a string. -/
def titleKindOk : Json → Bool
  | .null => false
  | .obj fs =>
    match lookupField fs "title" with
    | none => true
    | some .null => true
    | some (.bool false) => true
    | some (.num q) => q == 0
    | some (.str _) => true
    | some _ => false
  | _ => true

/-- The row bound for one actionable request. -/
def reqToRow (rowId : String) (fileId : String) (summary : Json) (req : Json) : FRRow :=
  { id := rowId
    audioFileId := fileId
    title := jsOrElse (req.getField "title") (.str "")
    description := jsOrElse (req.getField "description") (.str "")
    priority := jsOrElse (req.getField "priority") .null
    category := jsOrElse (req.getField "category") .null
    confidence := jsNullish (req.getField "confidence")
    potentialRecommendation :=
      match req.getField "potentialRecommendation" with
      | some (.str s) => .str s
      | some (.arr xs) => .str (stringifyJson (.arr xs))
      | _ => .null
    summary := summary }

/-- The placeholder row written when no actionable request exists: all
content fields NULL except the shared summary. -/
def placeholderRow (rowId : String) (fileId : String) (summary : Json) : FRRow :=
  { id := rowId
    audioFileId := fileId
    title := .null
    description := .null
    priority := .null
    category := .null
    confidence := .null
    potentialRecommendation := .null
    summary := summary }

/-- The insert loop over the actionable requests: the i-th insert draws the
i-th freshly minted UUID. -/
def rowsFor (fresh : Nat → String) (fileId : String) (summary : Json) :
    Nat → List Json → List FRRow
  | _, [] => []
  | i, r :: rs => reqToRow (fresh i) fileId summary r :: rowsFor fresh fileId summary (i + 1) rs

/-- D1 relational-store behaviour for one upload: `available` is the
binding check (`db && typeof db.prepare === "function"`); `metaOk` says the
`audio_files` block ran without a thrown error; `frFailAt = some k` says
the k-th statement of the feature-request block throws (the table-ensure
counting as statement 0 failing everything after it), so the rows inserted
before it persist and the rest are lost (the error is caught and
swallowed). -/
structure D1Env where
  available : Bool
  metaOk : Bool
  frFailAt : Option Nat

/-- Rows surviving a feature-request block whose `failAt`-th insert threw. -/
def truncateAt (failAt : Option Nat) (rows : List FRRow) : List FRRow :=
  match failAt with
  | none => rows
  | some k => rows.take k

/-- Evaluate `aiFeatures.featureRequests.summary || null`. -/
def summaryValOf (fr : Json) : Json :=
  jsOrElse (fr.getField "summary") .null

/-- The feature-request persistence block of the `/upload` handler: which
rows of `feature_requests` end up written, given the store behaviour, the
fresh-UUID supply, the parent audio-file id, and the AI result envelope.
Guarded by the binding check and `Array.isArray(...requests)`; a throwing
filter callback or a throwing insert is caught and swallowed. -/
def uploadFRRows (d1 : D1Env) (fresh : Nat → String) (fileId : String)
    (aiFeatures : Json) : List FRRow :=
  if !d1.available then []
  else
    match aiFeatures.getField "featureRequests" with
    | none => []
    | some fr =>
      if !jsTruthy fr then []
      else
        match fr.getField "requests" with
        | some (.arr reqs) =>
          let summary := summaryValOf fr
          match filterActionable reqs with
          | .error _ => []
          | .ok acts =>
            if acts.isEmpty then truncateAt d1.frFailAt [placeholderRow (fresh 0) fileId summary]
            else truncateAt d1.frFailAt (rowsFor fresh fileId summary 0 acts)
        | _ => []

/-! ## `/upload` handler -/

/-- The uploaded file as the handler sees it after `formData.get("audio")`. -/
structure UploadFile where
  name : String
  size : Nat
  mime : String

/-- Embedding of `name.replace(...)` sanitizing the file name. -/
def safeNameOf (s : String) : String :=
  ⟨s.data.map (fun c =>
    if c.isAlpha || c.isDigit || c = '.' || c = '_' || c = '-' then c else '_')⟩

/-- The `audioInfo` member of the success envelope (the
duration/sampleRate/channels fields are the fixed string "Unknown" and are
left implicit). -/
structure AudioInfo where
  fileName : String
  fileSize : Nat
  fileType : String
  fileId : String
  r2Key : Option String
deriving DecidableEq

/-- Response of the `/upload` handler: one of the three 400s, or the 200 success envelope
`\x7bsuccess: true, audioInfo, aiFeatures, message\x7d`.  (The 500 branch
fires only for exceptions outside the modelled, swallowed paths.) -/
inductive UploadResult where
  | badRequest (msg : String)
  | okResp (audioInfo : AudioInfo) (aiFeatures : Json)
deriving DecidableEq

/-- Environment of one `/upload` request: object store and relational
store behaviour, AI backend behaviour, measured durations, the minted file
UUID and the per-row UUID supply. -/
structure UploadEnv where
  r2Available : Bool
  r2PutOk : Bool
  d1 : D1Env
  ai : Option (WhisperOutcome × GenOutcome)
  wElapsed : Nat
  gElapsed : Nat
  fileId : String
  fresh : Nat → String

def maxUploadSize : Nat := 25 * 1024 * 1024

/-- The `/upload` handler after form decoding: validation, best-effort R2
and D1 storage, AI processing, feature-request persistence, response
assembly.  Returns the HTTP response together with the persisted
`feature_requests` rows. -/
def uploadHandler (file : Option UploadFile) (env : UploadEnv) :
    UploadResult × List FRRow :=
  match file with
  | none => (.badRequest "No audio file provided", [])
  | some f =>
    if !strStartsWith f.mime "audio/" then (.badRequest "File must be an audio file", [])
    else if maxUploadSize < f.size then (.badRequest "File size must be less than 25MB", [])
    else
      let r2Stored := env.r2Available && env.r2PutOk
      let aiFeatures := processAudioWithAI env.ai env.wElapsed env.gElapsed
      let rows := uploadFRRows env.d1 env.fresh env.fileId aiFeatures
      (.okResp
        { fileName := f.name
          fileSize := f.size
          fileType := f.mime
          fileId := env.fileId
          r2Key := if r2Stored then some ("uploads/" ++ env.fileId ++ "-" ++ safeNameOf f.name) else none }
        aiFeatures, rows)

/-- The `aiFeatures` member of a response, when it is a success. -/
def UploadResult.aiFeaturesOf : UploadResult → Option Json
  | .okResp _ aiF => some aiF
  | .badRequest _ => none

/-- Whether a response is the 200 success envelope (`success: true`). -/
def UploadResult.isSuccess : UploadResult → Bool
  | .okResp _ _ => true
  | .badRequest _ => false

/-! ## Helper lemmas -/

theorem lookupField_objUpsert (fs : List (String × Json)) (k : String) (v : Json)
    (k' : String) :
    lookupField (objUpsert fs k v) k' = if k' = k then some v else lookupField fs k' := by
  induction fs with
  | nil =>
    by_cases hk : k' = k
    · subst hk
      simp [objUpsert, lookupField, List.find?]
    · have h1 : (k = k') = False := eq_false fun h => hk h.symm
      simp [objUpsert, lookupField, List.find?, h1, eq_false hk]
  | cons a t ih =>
    obtain ⟨ak, av⟩ := a
    by_cases hak : ak = k
    · subst hak
      by_cases hk : k' = ak
      · subst hk
        simp [objUpsert, lookupField, List.find?]
      · have h1 : (ak = k') = False := eq_false fun h => hk h.symm
        simp [objUpsert, lookupField, List.find?, h1, eq_false hk]
    · by_cases hk' : ak = k'
      · subst hk'
        simp [objUpsert, lookupField, List.find?, hak, eq_false hak]
      · have h1 : (ak = k') = False := eq_false hk'
        by_cases hk : k' = k
        · subst hk
          simpa [objUpsert, hak, lookupField, List.find?, h1] using ih
        · simpa [objUpsert, hak, lookupField, List.find?, h1, eq_false hk] using ih

theorem getField_spreadWithMeta (base : List (String × Json)) (el : Nat) (t : String)
    (k : String) (h1 : k ≠ "extractionTimeMs") (h2 : k ≠ "model")
    (h3 : k ≠ "originalTranscription") :
    (spreadWithMeta base el t).getField k = lookupField base k := by
  simp [spreadWithMeta, Json.getField, lookupField_objUpsert, h1, h2, h3]

/-- On records whose title shape cannot make the callback throw, the
code's filter callback computes exactly the spec's actionability
predicate. -/
theorem isActionable_eq_spec (r : Json) (h : titleKindOk r = true) :
    isActionable r = .ok (actionableSpec r) := by
  cases r with
  | null => simp [titleKindOk] at h
  | bool b => simp [isActionable, actionableSpec, Json.getField]
  | num q => simp [isActionable, actionableSpec, Json.getField]
  | str s => simp [isActionable, actionableSpec, Json.getField]
  | arr xs => simp [isActionable, actionableSpec, Json.getField]
  | obj fs =>
    cases ht : lookupField fs "title" with
    | none => simp [isActionable, actionableSpec, Json.getField, ht]
    | some v =>
      cases v with
      | null => simp [isActionable, actionableSpec, Json.getField, ht]
      | bool b =>
        cases b with
        | false => simp [isActionable, actionableSpec, Json.getField, ht]
        | true => simp [titleKindOk, ht] at h
      | num q =>
        simp [titleKindOk, ht] at h
        simp [isActionable, actionableSpec, Json.getField, ht, h]
      | str s =>
        by_cases hs : s.isEmpty <;>
          simp [isActionable, actionableSpec, Json.getField, ht, hs, Bool.and_assoc]
      | arr xs => simp [titleKindOk, ht] at h
      | obj fs2 => simp [titleKindOk, ht] at h

/-- On a list of such records the filter neither throws nor diverges from
the spec predicate. -/
theorem filterActionable_eq (reqs : List Json)
    (h : ∀ r ∈ reqs, titleKindOk r = true) :
    filterActionable reqs = .ok (reqs.filter (fun r => actionableSpec r)) := by
  induction reqs with
  | nil => simp [filterActionable]
  | cons r rs ih =>
    have h1 := h r (by simp)
    have h2 : ∀ x ∈ rs, titleKindOk x = true := fun x hx => h x (by simp [hx])
    by_cases hb : actionableSpec r = true <;>
      simp [filterActionable, isActionable_eq_spec r h1, ih h2, List.filter, hb]

theorem rowsFor_length (fresh : Nat → String) (fid : String) (s : Json) :
    ∀ (rs : List Json) (i : Nat), (rowsFor fresh fid s i rs).length = rs.length := by
  intro rs
  induction rs with
  | nil => intro i; rfl
  | cons r t ih => intro i; simp [rowsFor, ih]

theorem rowsFor_map_id (fresh : Nat → String) (fid : String) (s : Json) :
    ∀ (rs : List Json) (i : Nat),
      (rowsFor fresh fid s i rs).map (fun row => row.id) =
        (List.range' i rs.length).map fresh := by
  intro rs
  induction rs with
  | nil => intro i; rfl
  | cons r t ih => intro i; simp [rowsFor, List.range', ih, reqToRow]

theorem rowsFor_fields (fresh : Nat → String) (fid : String) (s : Json) :
    ∀ (rs : List Json) (i : Nat) (row : FRRow), row ∈ rowsFor fresh fid s i rs →
      row.audioFileId = fid ∧ row.summary = s := by
  intro rs
  induction rs with
  | nil => intro i row h; simp [rowsFor] at h
  | cons r t ih =>
    intro i row h
    simp only [rowsFor, List.mem_cons] at h
    cases h with
    | inl h => subst h; exact ⟨rfl, rfl⟩
    | inr h => exact ih (i + 1) row h

theorem mem_rowsFor (fresh : Nat → String) (fid : String) (s : Json) :
    ∀ (rs : List Json) (i : Nat) (row : FRRow), row ∈ rowsFor fresh fid s i rs →
      ∃ j r, r ∈ rs ∧ row = reqToRow (fresh j) fid s r := by
  intro rs
  induction rs with
  | nil => intro i row h; simp [rowsFor] at h
  | cons r t ih =>
    intro i row h
    simp only [rowsFor, List.mem_cons] at h
    cases h with
    | inl h => exact ⟨i, r, by simp, h⟩
    | inr h =>
      obtain ⟨j, r2, hr2, hrow⟩ := ih (i + 1) row h
      exact ⟨j, r2, by simp [hr2], hrow⟩

theorem rowsFor_mem_of_mem (fresh : Nat → String) (fid : String) (s : Json) :
    ∀ (rs : List Json) (i : Nat) (r : Json), r ∈ rs →
      ∃ j, reqToRow (fresh j) fid s r ∈ rowsFor fresh fid s i rs := by
  intro rs
  induction rs with
  | nil => intro i r h; simp at h
  | cons r2 t ih =>
    intro i r h
    simp only [List.mem_cons] at h
    cases h with
    | inl h => subst h; exact ⟨i, by simp [rowsFor]⟩
    | inr h =>
      obtain ⟨j, hj⟩ := ih (i + 1) r h
      exact ⟨j, by simp [rowsFor, hj]⟩

/-- Characterization of the persisted rows when the store is fully
available (no insert fails) and the requests are throw-free shapes. -/
theorem uploadFRRows_char (d1 : D1Env) (fresh : Nat → String) (fileId : String)
    (aiF fr : Json) (reqs : List Json)
    (hav : d1.available = true) (hff : d1.frFailAt = none)
    (hfr : aiF.getField "featureRequests" = some fr) (htr : jsTruthy fr = true)
    (hreq : fr.getField "requests" = some (.arr reqs))
    (hwf : ∀ r ∈ reqs, titleKindOk r = true) :
    uploadFRRows d1 fresh fileId aiF =
      if (reqs.filter (fun r => actionableSpec r)).isEmpty then
        [placeholderRow (fresh 0) fileId (summaryValOf fr)]
      else rowsFor fresh fileId (summaryValOf fr) 0 (reqs.filter (fun r => actionableSpec r)) := by
  simp only [uploadFRRows, hav, hfr, htr, hreq, filterActionable_eq reqs hwf, hff,
    truncateAt, Bool.not_true, Bool.false_eq_true, if_false]

/-- Unfolding of the extraction stage when the backend call resolves. -/
theorem extractFeatureRequests_ok_eq (t : String) (resp txt : Option String) (el : Nat) :
    extractFeatureRequests t (some (.ok resp txt)) el =
      spreadWithMeta
        (match parsedSpan (respText resp txt) with
          | some (.obj fs) => fs
          | some _ => []
          | none => parseErrorFields) el t := rfl

/-! ## Claim theorems -/

/-- C3: whenever no brace-delimited span exists in the response text, or the
extracted span fails to decode as JSON, the extraction stage returns (it
recovers locally, the embedding is a total function) an ExtractionResult
whose `requests` is exactly the single parse-error record — id
"parse-error-1", title "Unable to parse AI response", priority low,
category improvement, confidence 0.1 — with the fixed summary "Error in
processing AI response". -/
theorem c3_parse_failure_fallback (t : String) (resp txt : Option String) (el : Nat)
    (h : parsedSpan (respText resp txt) = none) :
    (extractFeatureRequests t (some (.ok resp txt)) el).getField "requests"
        = some (.arr [parseErrorRecord])
    ∧ parseErrorRecord.getField "id" = some (.str "parse-error-1")
    ∧ parseErrorRecord.getField "title" = some (.str "Unable to parse AI response")
    ∧ parseErrorRecord.getField "priority" = some (.str "low")
    ∧ parseErrorRecord.getField "category" = some (.str "improvement")
    ∧ parseErrorRecord.getField "confidence" = some (.num (mkRat 1 10))
    ∧ (extractFeatureRequests t (some (.ok resp txt)) el).getField "summary"
        = some (.str "Error in processing AI response") := by
  rw [extractFeatureRequests_ok_eq, h]
  refine ⟨?_, by decide, by decide, by decide, by decide, by decide, ?_⟩
  · rw [getField_spreadWithMeta _ _ _ _ (by decide) (by decide) (by decide)]
    rfl
  · rw [getField_spreadWithMeta _ _ _ _ (by decide) (by decide) (by decide)]
    rfl

/-- C3 witness: a response with no braces at all takes the parse-error
path. -/
theorem c3_witness :
    (extractFeatureRequests "t" (some (.ok (some "The model refused.") none)) 7).getField
        "requests" = some (.arr [parseErrorRecord]) :=
  (c3_parse_failure_fallback "t" (some "The model refused.") none 7 (by decide)).1

/-- C2 counterexample: the backend resolves with the valid JSON object
text `\x7b"a":1\x7d`, which decodes fine but supplies no `requests` member;
the ExtractionResult spread from it has no `requests` field at all, so
`requests` is not "always present as a sequence". -/
theorem c2_counterexample :
    ¬ ∃ xs : List Json,
      (extractFeatureRequests "t" (some (.ok (some "\x7b\"a\":1\x7d") none)) 0).getField
          "requests" = some (.arr xs) := by
  rintro ⟨xs, h⟩
  rw [show (extractFeatureRequests "t" (some (.ok (some "\x7b\"a\":1\x7d") none)) 0).getField
      "requests" = none by decide] at h
  exact Option.noConfusion h

/-- C2 as amended: `requests` is present as a (singleton) sequence on the
invocation-failure and parse-failure paths; on parse success the
`requests` member of the result is exactly the `requests` member of the
decoded JSON object — present as a sequence if and only if the model's
JSON supplied one. -/
theorem c2_requests_presence (t : String) (ai : Option GenOutcome) (el : Nat) :
    ((ai = none ∨ ∃ m, ai = some (.throws m)) →
      (extractFeatureRequests t ai el).getField "requests"
        = some (.arr [extractionFallbackRecord]))
    ∧ (∀ resp txt, ai = some (.ok resp txt) → parsedSpan (respText resp txt) = none →
        (extractFeatureRequests t ai el).getField "requests" = some (.arr [parseErrorRecord]))
    ∧ (∀ resp txt fields, ai = some (.ok resp txt) →
        parsedSpan (respText resp txt) = some (.obj fields) →
        (extractFeatureRequests t ai el).getField "requests" = lookupField fields "requests") := by
  refine ⟨?_, ?_, ?_⟩
  · rintro (rfl | ⟨m, rfl⟩) <;> rfl
  · rintro resp txt rfl h
    rw [extractFeatureRequests_ok_eq, h,
      getField_spreadWithMeta _ _ _ _ (by decide) (by decide) (by decide)]
    rfl
  · rintro resp txt fields rfl h
    rw [extractFeatureRequests_ok_eq, h,
      getField_spreadWithMeta _ _ _ _ (by decide) (by decide) (by decide)]

/-- C2 witness: at the counterexample input, the parse-success branch of
the amended claim computes the (absent) `requests` member verbatim. -/
theorem c2_witness :
    (extractFeatureRequests "t" (some (.ok (some "\x7b\"a\":1\x7d") none)) 0).getField
        "requests" = lookupField [("a", Json.num 1)] "requests" :=
  (c2_requests_presence "t" (some (.ok (some "\x7b\"a\":1\x7d") none)) 0).2.2
    (some "\x7b\"a\":1\x7d") none [("a", Json.num 1)] rfl (by decide)

/-- C4 counterexample: when the backend throws a JS `Error` whose message
is the empty string, `errorDetail` is attached but empty, refuting the
"non-empty errorDetail" part of the claim. -/
theorem c4_counterexample :
    (extractFeatureRequests "t" (some (.throws (some ""))) 0).getField "error"
        = some (.str "")
    ∧ ¬ ∃ e : String,
        (extractFeatureRequests "t" (some (.throws (some ""))) 0).getField "error"
          = some (.str e) ∧ e ≠ "" := by
  refine ⟨rfl, ?_⟩
  rintro ⟨e, he, hne⟩
  rw [show (extractFeatureRequests "t" (some (.throws (some ""))) 0).getField "error"
      = some (.str "") from rfl] at he
  exact hne (Json.str.inj (Option.some.inj he)).symm

/-- C4 as amended: on every invocation-failure path (backend handle absent
or the call throwing) the extraction stage returns — after the artificial
delay, whose hardcoded 300ms shows up as `extractionTimeMs` — exactly one
record with id "fallback-1", title "[Fallback] Feature extraction failed",
priority medium, category improvement, confidence 0.3, with the fixed
fallback summary, and an `errorDetail` describing the underlying failure:
it is exactly the thrown error's message ("Unknown error" for a non-Error
throw, "AI binding not available" when the handle is absent), so it is
non-empty except in the corner case of an `Error` thrown with an empty
message. -/
theorem c4_invocation_failure_fallback (t : String) (el : Nat) (ai : Option GenOutcome)
    (h : ai = none ∨ ∃ m, ai = some (.throws m)) :
    (extractFeatureRequests t ai el).getField "requests"
        = some (.arr [extractionFallbackRecord])
    ∧ extractionFallbackRecord.getField "id" = some (.str "fallback-1")
    ∧ extractionFallbackRecord.getField "title"
        = some (.str "[Fallback] Feature extraction failed")
    ∧ extractionFallbackRecord.getField "priority" = some (.str "medium")
    ∧ extractionFallbackRecord.getField "category" = some (.str "improvement")
    ∧ extractionFallbackRecord.getField "confidence" = some (.num (mkRat 3 10))
    ∧ (extractFeatureRequests t ai el).getField "summary"
        = some (.str "Feature extraction failed - using fallback response")
    ∧ (extractFeatureRequests t ai el).getField "extractionTimeMs" = some (.num 300)
    ∧ ∃ e : String, (extractFeatureRequests t ai el).getField "error" = some (.str e)
        ∧ (ai = none → e = "AI binding not available")
        ∧ (∀ m, ai = some (.throws m) → e = errMsgOf m)
        ∧ (e = "" → ai = some (.throws (some ""))) := by
  rcases h with rfl | ⟨m, rfl⟩
  · refine ⟨rfl, by decide, by decide, by decide, by decide, by decide, rfl, rfl,
      "AI binding not available", rfl, fun _ => rfl, ?_, fun he => absurd he (by decide)⟩
    intro m hm
    exact Option.noConfusion hm
  · cases m with
    | none =>
      refine ⟨rfl, by decide, by decide, by decide, by decide, by decide, rfl, rfl,
        "Unknown error", rfl, fun h0 => Option.noConfusion h0, ?_,
        fun he => absurd he (by decide)⟩
      intro m2 hm
      have h2 := GenOutcome.throws.inj (Option.some.inj hm)
      subst h2
      rfl
    | some s =>
      refine ⟨rfl, by decide, by decide, by decide, by decide, by decide, rfl, rfl,
        s, rfl, fun h0 => Option.noConfusion h0, ?_, fun he => by rw [he]⟩
      intro m2 hm
      have h2 := GenOutcome.throws.inj (Option.some.inj hm)
      subst h2
      rfl

/-- C4 witness: absent AI binding. -/
theorem c4_witness :
    (extractFeatureRequests "hello" none 3).getField "requests"
      = some (.arr [extractionFallbackRecord]) :=
  (c4_invocation_failure_fallback "hello" 3 none (Or.inl rfl)).1

/-- C7: whenever the first-to-last-brace span of the response text decodes
as a JSON object, the `requests` member of the returned ExtractionResult
is the `requests` array of that object, verbatim — same length, and every
item's `title` / `priority` / `category` are exactly the source values —
while the metadata keys (`extractionTimeMs`, `model`,
`originalTranscription`) are merged alongside. -/
theorem c7_parse_success_verbatim (t : String) (resp txt : Option String) (el : Nat)
    (fields : List (String × Json)) (xs : List Json)
    (hp : parsedSpan (respText resp txt) = some (.obj fields))
    (hreq : lookupField fields "requests" = some (.arr xs)) :
    (extractFeatureRequests t (some (.ok resp txt)) el).getField "requests"
        = some (.arr xs)
    ∧ (extractFeatureRequests t (some (.ok resp txt)) el).getField "model"
        = some (.str mistralModelId)
    ∧ (extractFeatureRequests t (some (.ok resp txt)) el).getField "originalTranscription"
        = some (.str t) := by
  rw [extractFeatureRequests_ok_eq, hp]
  refine ⟨?_, ?_, ?_⟩
  · rw [getField_spreadWithMeta _ _ _ _ (by decide) (by decide) (by decide)]
    exact hreq
  · simp [spreadWithMeta, Json.getField, lookupField_objUpsert]
  · simp [spreadWithMeta, Json.getField, lookupField_objUpsert]

set_option maxRecDepth 4000 in
/-- C7 witness: a chatty response embedding a valid JSON object with one
request. -/
theorem c7_witness :
    (extractFeatureRequests "add dark mode"
        (some (.ok (some "Here you go: \x7b\"requests\":[\x7b\"id\":\"1\",\"title\":\"Add dark mode\",\"priority\":\"low\",\"category\":\"enhancement\",\"confidence\":0.9\x7d],\"summary\":\"s\"\x7d")
          none)) 42).getField "requests"
      = some (.arr [.obj [("id", .str "1"), ("title", .str "Add dark mode"),
          ("priority", .str "low"), ("category", .str "enhancement"),
          ("confidence", .num (mkRat 9 10))]]) :=
  (c7_parse_success_verbatim "add dark mode"
    (some "Here you go: \x7b\"requests\":[\x7b\"id\":\"1\",\"title\":\"Add dark mode\",\"priority\":\"low\",\"category\":\"enhancement\",\"confidence\":0.9\x7d],\"summary\":\"s\"\x7d")
    none 42
    [("requests", .arr [.obj [("id", .str "1"), ("title", .str "Add dark mode"),
        ("priority", .str "low"), ("category", .str "enhancement"),
        ("confidence", .num (mkRat 9 10))]]), ("summary", .str "s")]
    [.obj [("id", .str "1"), ("title", .str "Add dark mode"), ("priority", .str "low"),
        ("category", .str "enhancement"), ("confidence", .num (mkRat 9 10))]]
    (by decide) (by decide)).1

/-- C8 counterexample: a body whose `transcription` field is present but
empty is rejected with the same 400 as a missing field (the handler tests
JS truthiness, and `""` is falsy), so the 400 is not reserved for a missing
field and the extraction stage does not run on the empty string. -/
theorem c8_counterexample :
    extractFeaturesHandler (some "") (some (.ok (some "x") none)) 0
        = .badRequest "No transcription provided"
    ∧ ¬ ∃ fr, extractFeaturesHandler (some "") (some (.ok (some "x") none)) 0 = .ok fr := by
  refine ⟨rfl, ?_⟩
  rintro ⟨fr, h⟩
  rw [show extractFeaturesHandler (some "") (some (.ok (some "x") none)) 0
      = .badRequest "No transcription provided" from rfl] at h
  exact ExtractResp.noConfusion h

/-- C8 as amended: the endpoint returns 400 "No transcription provided"
both for a missing `transcription` field and for an empty-string one; for
every non-empty transcription (no other minimum length is enforced) the
extraction stage runs on it and its result is returned in the success
envelope. -/
theorem c8_empty_transcription (t : String) (ai : Option GenOutcome) (el : Nat) :
    (t ≠ "" → extractFeaturesHandler (some t) ai el = .ok (extractFeatureRequests t ai el))
    ∧ (t = "" → extractFeaturesHandler (some t) ai el
        = .badRequest "No transcription provided")
    ∧ extractFeaturesHandler none ai el = .badRequest "No transcription provided" := by
  refine ⟨?_, ?_, rfl⟩
  · intro h
    have he : t.isEmpty = false := by
      cases hemp : t.isEmpty
      · rfl
      · exact absurd ((String.isEmpty_iff t).mp hemp) h
    simp [extractFeaturesHandler, he]
  · rintro rfl
    rfl

/-- C8 witness: a one-character transcription reaches the extraction
stage. -/
theorem c8_witness :
    extractFeaturesHandler (some "a") none 0 = .ok (extractFeatureRequests "a" none 0) :=
  (c8_empty_transcription "a" none 0).1 (by decide)

/-- Keys contributed by the optional `language` member. -/
theorem languageFields_keys (r : WhisperFields) :
    ∀ p ∈ languageFields r, p.1 = "language" := by
  unfold languageFields
  cases r.language with
  | none => simp
  | some l =>
    by_cases hl : l.isEmpty <;> simp [hl]

/-- Field lookup of `featureRequests` in the success envelope, skipping the
optional `language` entry. -/
theorem getField_envelope (tx : String) (lf : List (String × Json)) (w : ℚ) (frj : Json)
    (hlf : ∀ p ∈ lf, p.1 = "language") :
    (Json.obj ([("transcription", .str tx)] ++ lf ++
        [("processingTimeMs", .num w), ("model", .str whisperModelId),
         ("featureRequests", frj)])).getField "featureRequests" = some frj := by
  induction lf with
  | nil => rfl
  | cons p t ih =>
    have hp := hlf p (by simp)
    have ht : ∀ q ∈ t, q.1 = "language" := fun q hq => hlf q (by simp [hq])
    obtain ⟨pk, pv⟩ := p
    simp only at hp
    subst hp
    simpa [Json.getField, lookupField, List.find?] using ih ht

/-- C1 counterexample: the Whisper call throws while the text-generation
backend would happily return the valid JSON `\x7b"requests":[],"summary":"s"\x7d`;
had the stage invoked extraction on the mock transcription as claimed, the
embedded result would have an empty `requests` — instead the envelope
carries the hardcoded mock with one "mock-1" record, so the embedded value
is not the Extraction Stage's result. -/
theorem c1_counterexample :
    (processAudioWithAI
        (some (.throws none, .ok (some "\x7b\"requests\":[],\"summary\":\"s\"\x7d") none)) 0 0).getField
        "featureRequests"
      ≠ some (extractFeatureRequests mockTranscriptionText
          (some (.ok (some "\x7b\"requests\":[],\"summary\":\"s\"\x7d") none)) 0) := by
  decide

/-- C1 as amended: when the Whisper call resolves, the stage invokes the
Extraction Stage on the obtained transcription text and embeds its
ExtractionResult in the envelope; when the Whisper call throws or the AI
binding is absent, the stage embeds the fixed hardcoded mock
`featureRequests` object instead, without invoking the Extraction Stage. -/
theorem c1_extraction_embedding (ai : Option (WhisperOutcome × GenOutcome)) (wE gE : Nat) :
    (∀ r g, ai = some (.ok r, g) →
      (processAudioWithAI ai wE gE).getField "featureRequests"
        = some (extractFeatureRequests (respText r.text r.transcription) (some g) gE))
    ∧ (∀ m g, ai = some (.throws m, g) →
        (processAudioWithAI ai wE gE).getField "featureRequests"
          = some (mockFeatureRequests (errMsgOf m)))
    ∧ (ai = none →
        (processAudioWithAI ai wE gE).getField "featureRequests"
          = some (mockFeatureRequests "AI binding not available")) := by
  refine ⟨?_, ?_, ?_⟩
  · rintro r g rfl
    exact getField_envelope _ _ _ _ (languageFields_keys r)
  · rintro m g rfl
    rfl
  · rintro rfl
    rfl

/-- C1 witness: on a resolved Whisper call the embedded value is the
extraction result for the transcribed text. -/
theorem c1_witness :
    (processAudioWithAI (some (.ok ⟨some "add dark mode", none, none, none⟩, .throws none)) 1 2).getField
        "featureRequests"
      = some (extractFeatureRequests "add dark mode" (some (.throws none)) 2) :=
  (c1_extraction_embedding _ 1 2).1 ⟨some "add dark mode", none, none, none⟩ (.throws none) rfl

/-- C9: for a valid upload, the success of the response and the AI results
in it depend only on the AI backend behaviour: any two environments
agreeing on the AI part — whatever their object-store and relational-store
availability or failures — produce `success: true` envelopes carrying the
same `aiFeatures`, which is precisely the AI pipeline's output. -/
theorem c9_storage_transparent (f : UploadFile) (e1 e2 : UploadEnv)
    (hmime : strStartsWith f.mime "audio/" = true)
    (hsize : f.size ≤ maxUploadSize)
    (hai : e1.ai = e2.ai) (hw : e1.wElapsed = e2.wElapsed) (hg : e1.gElapsed = e2.gElapsed) :
    (uploadHandler (some f) e1).1.isSuccess = true
    ∧ (uploadHandler (some f) e2).1.isSuccess = true
    ∧ (uploadHandler (some f) e1).1.aiFeaturesOf = (uploadHandler (some f) e2).1.aiFeaturesOf
    ∧ (uploadHandler (some f) e1).1.aiFeaturesOf
        = some (processAudioWithAI e1.ai e1.wElapsed e1.gElapsed) := by
  have hns : ¬ (maxUploadSize < f.size) := not_lt.mpr hsize
  simp [uploadHandler, hmime, hns, UploadResult.isSuccess, UploadResult.aiFeaturesOf,
    hai, hw, hg]

/-- C9 witness: the same file and AI behaviour against a fully available
store and a fully broken one. -/
theorem c9_witness :
    ((uploadHandler (some ⟨"a.mp3", 4, "audio/mpeg"⟩)
        ⟨true, true, ⟨true, true, none⟩, none, 0, 0, "file-1", fun _ => "u"⟩).1.isSuccess = true)
    ∧ ((uploadHandler (some ⟨"a.mp3", 4, "audio/mpeg"⟩)
        ⟨false, false, ⟨false, false, some 0⟩, none, 0, 0, "file-1", fun _ => "u"⟩).1.isSuccess = true)
    ∧ ((uploadHandler (some ⟨"a.mp3", 4, "audio/mpeg"⟩)
          ⟨true, true, ⟨true, true, none⟩, none, 0, 0, "file-1", fun _ => "u"⟩).1.aiFeaturesOf
        = (uploadHandler (some ⟨"a.mp3", 4, "audio/mpeg"⟩)
          ⟨false, false, ⟨false, false, some 0⟩, none, 0, 0, "file-1", fun _ => "u"⟩).1.aiFeaturesOf) := by
  have h := c9_storage_transparent ⟨"a.mp3", 4, "audio/mpeg"⟩
    ⟨true, true, ⟨true, true, none⟩, none, 0, 0, "file-1", fun _ => "u"⟩
    ⟨false, false, ⟨false, false, some 0⟩, none, 0, 0, "file-1", fun _ => "u"⟩
    (by decide) (by decide) rfl rfl rfl
  exact ⟨h.1, h.2.1, h.2.2.1⟩

/-- C6: with the relational store available and failure-free, an
ExtractionResult with N ≥ 1 actionable records yields exactly N rows — each
carrying the parent audio-file id and the shared summary, with pairwise
distinct freshly minted ids (given a collision-free UUID supply) — and an
ExtractionResult with zero actionable records yields exactly one
placeholder row whose content fields are all null except the shared
summary. -/
theorem c6_persistence_row_counts (d1 : D1Env) (fresh : Nat → String) (fileId : String)
    (aiF fr : Json) (reqs : List Json)
    (hav : d1.available = true) (hff : d1.frFailAt = none)
    (hfr : aiF.getField "featureRequests" = some fr) (htr : jsTruthy fr = true)
    (hreq : fr.getField "requests" = some (.arr reqs))
    (hwf : ∀ r ∈ reqs, titleKindOk r = true) :
    ((reqs.filter (fun r => actionableSpec r)) ≠ [] →
      (uploadFRRows d1 fresh fileId aiF).length
          = (reqs.filter (fun r => actionableSpec r)).length
      ∧ (∀ row ∈ uploadFRRows d1 fresh fileId aiF,
          row.audioFileId = fileId ∧ row.summary = summaryValOf fr)
      ∧ (Function.Injective fresh →
          ((uploadFRRows d1 fresh fileId aiF).map (fun row => row.id)).Nodup))
    ∧ ((reqs.filter (fun r => actionableSpec r)) = [] →
        uploadFRRows d1 fresh fileId aiF
          = [{ id := fresh 0, audioFileId := fileId, title := .null, description := .null,
               priority := .null, category := .null, confidence := .null,
               potentialRecommendation := .null, summary := summaryValOf fr }]) := by
  rw [uploadFRRows_char d1 fresh fileId aiF fr reqs hav hff hfr htr hreq hwf]
  constructor
  · intro hne
    have hempty : (reqs.filter (fun r => actionableSpec r)).isEmpty = false := by
      cases hi : (reqs.filter (fun r => actionableSpec r)).isEmpty
      · rfl
      · exact absurd (List.isEmpty_iff.mp hi) hne
    rw [if_neg (by simp [hempty])]
    refine ⟨rowsFor_length fresh fileId (summaryValOf fr) _ 0, ?_, ?_⟩
    · intro row hrow
      exact rowsFor_fields fresh fileId (summaryValOf fr) _ 0 row hrow
    · intro hinj
      rw [rowsFor_map_id fresh fileId (summaryValOf fr) _ 0]
      exact (List.nodup_range' _ _).map hinj
  · intro he
    rw [if_pos (by simp [he])]
    rfl

/-- C6 witness: one actionable record yields exactly one row. -/
theorem c6_witness :
    (uploadFRRows ⟨true, true, none⟩ (fun _ => "u") "file-1"
        (Json.obj [("featureRequests",
          Json.obj [("requests", Json.arr [Json.obj [("title", Json.str "Add dark mode")]]),
                    ("summary", Json.str "s")])])).length
      = ([Json.obj [("title", Json.str "Add dark mode")]].filter
          (fun r => actionableSpec r)).length :=
  ((c6_persistence_row_counts ⟨true, true, none⟩ (fun _ => "u") "file-1"
      (Json.obj [("featureRequests",
        Json.obj [("requests", Json.arr [Json.obj [("title", Json.str "Add dark mode")]]),
                  ("summary", Json.str "s")])])
      (Json.obj [("requests", Json.arr [Json.obj [("title", Json.str "Add dark mode")]]),
                 ("summary", Json.str "s")])
      [Json.obj [("title", Json.str "Add dark mode")]]
      rfl rfl (by decide) (by decide) (by decide) (by decide)).1 (by decide)).1

theorem jsOrElse_strdef_ne_null (o : Option Json) : jsOrElse o (.str "") ≠ .null := by
  cases o with
  | none => simp [jsOrElse]
  | some v =>
    cases hv : jsTruthy v with
    | false => simp [jsOrElse, hv]
    | true =>
      simp [jsOrElse, hv]
      intro h
      subst h
      simp [jsTruthy] at hv

theorem actionable_title (r : Json) (h : actionableSpec r = true) :
    ∃ t, r.getField "title" = some (.str t) ∧ t.isEmpty = false ∧
      strHasSub (strToLower t) "parse error" = false ∧
      strHasSub (strToLower t) "fallback" = false := by
  unfold actionableSpec at h
  cases ht : r.getField "title" with
  | none => rw [ht] at h; cases h
  | some v =>
    cases v with
    | str t =>
      rw [ht] at h
      simp only [Bool.and_eq_true, Bool.not_eq_true'] at h
      exact ⟨t, rfl, h.1.1, h.1.2, h.2⟩
    | null => rw [ht] at h; cases h
    | bool b => rw [ht] at h; cases h
    | num q => rw [ht] at h; cases h
    | arr xs => rw [ht] at h; cases h
    | obj fs => rw [ht] at h; cases h

/-- If a row bound for `r` coincides with the row bound for an actionable
record `r2`, then `r` itself satisfies the actionability predicate (the
bound `title` column pins the in-memory title down). -/
theorem actionable_of_reqToRow_eq (rid rid2 : String) (fid : String) (s : Json)
    (r r2 : Json) (h2 : actionableSpec r2 = true)
    (heq : reqToRow rid fid s r = reqToRow rid2 fid s r2) :
    actionableSpec r = true := by
  obtain ⟨t, ht2, htne, hp1, hp2⟩ := actionable_title r2 h2
  have htitle : jsOrElse (r.getField "title") (.str "")
      = jsOrElse (r2.getField "title") (.str "") := congrArg FRRow.title heq
  rw [ht2] at htitle
  have htruthy : jsTruthy (.str t) = true := by simp [jsTruthy, htne]
  rw [show jsOrElse (some (Json.str t)) (.str "") = .str t by simp [jsOrElse, htruthy]]
    at htitle
  cases hr : r.getField "title" with
  | none =>
    rw [hr] at htitle
    simp [jsOrElse] at htitle
    rw [← htitle] at htne
    rw [show ("" : String).isEmpty = true from rfl] at htne
    exact Bool.noConfusion htne
  | some v =>
    rw [hr] at htitle
    cases hv : jsTruthy v with
    | false =>
      simp [jsOrElse, hv] at htitle
      rw [← htitle] at htne
      rw [show ("" : String).isEmpty = true from rfl] at htne
      exact Bool.noConfusion htne
    | true =>
      simp [jsOrElse, hv] at htitle
      subst htitle
      simp [actionableSpec, hr, htne, hp1, hp2]

/-- C5: for a valid upload with the relational store available and
failure-free, a record of the returned ExtractionResult is persisted as a
named `feature_requests` row exactly when it is actionable (its title is a
non-empty string whose lowercase form contains neither "parse error" nor
"fallback"); non-actionable records are excluded from persistence, while
the in-memory ExtractionResult returned to the caller keeps all records —
the response's `aiFeatures` is the unfiltered AI envelope itself. -/
theorem c5_actionable_persistence (f : UploadFile) (env : UploadEnv) (aiF fr : Json)
    (reqs : List Json)
    (hmime : strStartsWith f.mime "audio/" = true)
    (hsize : f.size ≤ maxUploadSize)
    (hav : env.d1.available = true) (hff : env.d1.frFailAt = none)
    (haiF : processAudioWithAI env.ai env.wElapsed env.gElapsed = aiF)
    (hfr : aiF.getField "featureRequests" = some fr) (htr : jsTruthy fr = true)
    (hreq : fr.getField "requests" = some (.arr reqs))
    (hwf : ∀ r ∈ reqs, titleKindOk r = true) :
    (∀ r ∈ reqs,
      (∃ row ∈ (uploadHandler (some f) env).2, ∃ rid,
          row = reqToRow rid env.fileId (summaryValOf fr) r)
        ↔ actionableSpec r = true)
    ∧ (uploadHandler (some f) env).1.aiFeaturesOf = some aiF := by
  have hns : ¬ (maxUploadSize < f.size) := not_lt.mpr hsize
  have hrows : (uploadHandler (some f) env).2
      = uploadFRRows env.d1 env.fresh env.fileId aiF := by
    simp [uploadHandler, hmime, hns, haiF]
  rw [uploadFRRows_char env.d1 env.fresh env.fileId aiF fr reqs hav hff hfr htr hreq hwf]
    at hrows
  constructor
  · intro r hr
    by_cases hact : ((reqs.filter (fun x => actionableSpec x)).isEmpty : Bool) = true
    · rw [if_pos (by simp [hact])] at hrows
      constructor
      · rintro ⟨row, hrow, rid, heq⟩
        rw [hrows] at hrow
        simp only [List.mem_singleton] at hrow
        subst hrow
        have := congrArg FRRow.title heq
        simp only [placeholderRow] at this
        exact absurd this.symm (jsOrElse_strdef_ne_null (r.getField "title"))
      · intro hactr
        have : r ∈ reqs.filter (fun x => actionableSpec x) :=
          List.mem_filter.mpr ⟨hr, hactr⟩
        rw [List.isEmpty_iff.mp hact] at this
        cases this
    · rw [if_neg (by simpa using hact)] at hrows
      constructor
      · rintro ⟨row, hrow, rid, heq⟩
        rw [hrows] at hrow
        obtain ⟨j, r2, hr2, hroweq⟩ :=
          mem_rowsFor env.fresh env.fileId (summaryValOf fr) _ 0 row hrow
        have hact2 : actionableSpec r2 = true := (List.mem_filter.mp hr2).2
        exact actionable_of_reqToRow_eq rid (env.fresh j) env.fileId (summaryValOf fr)
          r r2 hact2 (heq ▸ hroweq)
      · intro hactr
        have hmem : r ∈ reqs.filter (fun x => actionableSpec x) :=
          List.mem_filter.mpr ⟨hr, hactr⟩
        obtain ⟨j, hj⟩ :=
          rowsFor_mem_of_mem env.fresh env.fileId (summaryValOf fr) _ 0 r hmem
        exact ⟨reqToRow (env.fresh j) env.fileId (summaryValOf fr) r,
          by rw [hrows]; exact hj, env.fresh j, rfl⟩
  · simp [uploadHandler, hmime, hns, UploadResult.aiFeaturesOf, haiF]

/-- C5 witness: with an absent AI backend the mock record is actionable
and indeed persisted as a named row. -/
theorem c5_witness :
    ∃ row ∈ (uploadHandler (some ⟨"a.mp3", 4, "audio/mpeg"⟩)
        ⟨true, true, ⟨true, true, none⟩, none, 0, 0, "file-1", fun _ => "u"⟩).2, ∃ rid,
      row = reqToRow rid "file-1"
        (summaryValOf (mockFeatureRequests "AI binding not available"))
        mockFeatureRequestRecord :=
  ((c5_actionable_persistence ⟨"a.mp3", 4, "audio/mpeg"⟩
      ⟨true, true, ⟨true, true, none⟩, none, 0, 0, "file-1", fun _ => "u"⟩
      (mockEnvelope (some "AI binding not available"))
      (mockFeatureRequests "AI binding not available")
      [mockFeatureRequestRecord]
      (by decide) (by decide) rfl rfl rfl rfl (by decide) rfl (by decide)).1
    mockFeatureRequestRecord (by decide)).mpr (by decide)

/-- C10: when the transcription backend call fails (or the AI binding is
absent) and the relational store is available and failure-free, the
envelope's `featureRequests.requests` is exactly the one hardcoded mock
record (`id` "mock-1", title "[Mock] Feature Request Example"); that title
satisfies the actionability predicate, so exactly one named row — carrying
the mock title — is persisted for it. -/
theorem c10_mock_record_persisted (f : UploadFile) (env : UploadEnv)
    (hmime : strStartsWith f.mime "audio/" = true)
    (hsize : f.size ≤ maxUploadSize)
    (hav : env.d1.available = true) (hff : env.d1.frFailAt = none)
    (hai : env.ai = none ∨ ∃ m g, env.ai = some (.throws m, g)) :
    ∃ fr,
      (processAudioWithAI env.ai env.wElapsed env.gElapsed).getField "featureRequests"
          = some fr
      ∧ fr.getField "requests" = some (.arr [mockFeatureRequestRecord])
      ∧ mockFeatureRequestRecord.getField "id" = some (.str "mock-1")
      ∧ mockFeatureRequestRecord.getField "title"
          = some (.str "[Mock] Feature Request Example")
      ∧ actionableSpec mockFeatureRequestRecord = true
      ∧ (uploadHandler (some f) env).2
          = [reqToRow (env.fresh 0) env.fileId Json.null mockFeatureRequestRecord]
      ∧ (reqToRow (env.fresh 0) env.fileId Json.null mockFeatureRequestRecord).title
          = .str "[Mock] Feature Request Example" := by
  have hns : ¬ (maxUploadSize < f.size) := not_lt.mpr hsize
  have hrows : (uploadHandler (some f) env).2
      = uploadFRRows env.d1 env.fresh env.fileId
          (processAudioWithAI env.ai env.wElapsed env.gElapsed) := by
    simp [uploadHandler, hmime, hns]
  rcases hai with hai | ⟨m, g, hai⟩
  · rw [hai] at hrows ⊢
    refine ⟨mockFeatureRequests "AI binding not available", rfl, rfl, by decide, by decide,
      by decide, ?_, rfl⟩
    rw [hrows,
      show processAudioWithAI none env.wElapsed env.gElapsed
        = mockEnvelope (some "AI binding not available") from rfl,
      uploadFRRows_char env.d1 env.fresh env.fileId
        (mockEnvelope (some "AI binding not available"))
        (mockFeatureRequests "AI binding not available")
        [mockFeatureRequestRecord] hav hff rfl rfl rfl (by decide),
      show [mockFeatureRequestRecord].filter (fun r => actionableSpec r)
        = [mockFeatureRequestRecord] from by decide]
    rfl
  · rw [hai] at hrows ⊢
    refine ⟨mockFeatureRequests (errMsgOf m), rfl, rfl, by decide, by decide,
      by decide, ?_, rfl⟩
    rw [hrows,
      show processAudioWithAI (some (WhisperOutcome.throws m, g)) env.wElapsed env.gElapsed
        = mockEnvelope m from rfl,
      uploadFRRows_char env.d1 env.fresh env.fileId (mockEnvelope m)
        (mockFeatureRequests (errMsgOf m))
        [mockFeatureRequestRecord] hav hff rfl rfl rfl (by decide),
      show [mockFeatureRequestRecord].filter (fun r => actionableSpec r)
        = [mockFeatureRequestRecord] from by decide]
    rfl

/-- C10 witness: absent AI binding, available store: exactly the one mock
row is persisted. -/
theorem c10_witness :
    (uploadHandler (some ⟨"a.mp3", 4, "audio/mpeg"⟩)
        ⟨true, true, ⟨true, true, none⟩, none, 0, 0, "file-1", fun _ => "u"⟩).2
      = [reqToRow "u" "file-1" Json.null mockFeatureRequestRecord] := by
  obtain ⟨fr, -, -, -, -, -, hrows, -⟩ :=
    c10_mock_record_persisted ⟨"a.mp3", 4, "audio/mpeg"⟩
      ⟨true, true, ⟨true, true, none⟩, none, 0, 0, "file-1", fun _ => "u"⟩
      (by decide) (by decide) rfl rfl (Or.inl rfl)
  exact hrows
